import Mathlib

/-!
Shallow embedding of the `embd` GPIO driver and the `adafruit_charlcd`
HD44780-over-I2C driver, together with proofs of the specification claims.

Conventions of the embedding:
* Go `byte` values are `Nat` with an explicit `% 256` wherever Go's 8-bit
  arithmetic can overflow (shifts, additions); Go `int` is `Int`.
* Errors are ordinary values (`Option Err` with `Err := Nat` standing for an
  opaque Go `error`); a Go panic (out-of-range array index) is `Option.none`
  on the result of the whole operation.
* The I2C bus and the generic `Connection` are modelled by a fault oracle
  (`fails : Nat → Option Err`, indexed by the number of calls issued so far)
  plus an explicit log of the calls issued, so that "what was transmitted"
  and "what error came back" are both visible to the theorems.  Timing
  delays (`time.Sleep`) have no observable effect in a sequential model and
  are not represented.
-/

namespace Embd

/-- Opaque error values carried by the Go `error` interface. -/
abbrev Err := Nat

/-- Go byte shift-left: `(x << n)` truncated to 8 bits. -/
def shl8 (x n : Nat) : Nat := (x <<< n) % 256

/-- Go byte complement `^x` for `x < 256`. -/
def compl8 (x : Nat) : Nat := 0xFF ^^^ x

/-! ## Pin registry and GPIO driver (source file `part_000`) -/

/-- Capability flag `CapNormal = 1 << 0`: general-purpose digital I/O. -/
def CapNormal : Nat := 1

/-- Capability flag `CapI2C = 1 << 1`. -/
def CapI2C : Nat := 2

/-- A pin descriptor: numeric id `N`, alias strings `IDs`, capability mask `Caps`. -/
structure PinDesc where
  N : Int
  IDs : List String
  Caps : Nat
deriving DecidableEq, Repr

/-- The pin registry: an ordered list of descriptors. -/
abbrev PinMap := List PinDesc

/-- A lookup key, `interface{}` in Go: an `int`, a `string`, or any other
dynamic type (which matches neither switch case). -/
inductive Key where
  | int : Int → Key
  | str : String → Key
  | other : Key
deriving DecidableEq, Repr

/-- First descriptor whose numeric id equals `n` (the `case int` loop). -/
def lookupInt : List PinDesc → Int → Option PinDesc
  | [], _ => none
  | pd :: rest, n => if pd.N = n then some pd else lookupInt rest n

/-- First descriptor one of whose alias strings equals `s`
(the `case string` nested loops). -/
def lookupStr : List PinDesc → String → Option PinDesc
  | [], _ => none
  | pd :: rest, s => if s ∈ pd.IDs then some pd else lookupStr rest s

/-- `PinMap.Lookup`: type-switch on the key; a key of any other dynamic type
falls through to `(nil, false)`, modelled as `none`. -/
def PinMap.Lookup (m : PinMap) (k : Key) : Option PinDesc :=
  match k with
  | .int n => lookupInt m n
  | .str s => lookupStr m s
  | .other => none

/-- A live pin handle held by the driver.  The Go code stores values of the
interface type `pin` and type-asserts `*digitalPin`; we model the open-ended
interface as a tagged variant: `digital` is a `*digitalPin`, `analog` stands
for a handle of any other concrete kind. -/
inductive Handle where
  | digital : Int → Handle
  | analog : Int → Handle
deriving DecidableEq, Repr

/-- Errors returned by `gpioDriver.digitalPin`. -/
inductive PinErr where
  | notFound
  | modeConflict
  | unsupportedMode
deriving DecidableEq, Repr

/-- The map `initializedPins map[int]pin`, as an association list. -/
def findPin : List (Int × Handle) → Int → Option Handle
  | [], _ => none
  | p :: rest, n => if p.1 = n then some p.2 else findPin rest n

/-- `gpioDriver`: pin registry plus the map of initialized pins. -/
structure gpioDriver where
  pinMap : PinMap
  initializedPins : List (Int × Handle)
deriving DecidableEq, Repr

/-- `gpioDriver.digitalPin`.  The result is the Go return value, the driver
state after the call, and the number of underlying pin opens
(`newDigitalPin`) performed.  The advisory `glog.Infof` on a multi-capability
pin has no observable effect and is not represented. -/
def digitalPin (io : gpioDriver) (key : Key) :
    Except PinErr Handle × gpioDriver × Nat :=
  match io.pinMap.Lookup key with
  | none => (.error .notFound, io, 0)
  | some pd =>
    match findPin io.initializedPins pd.N with
    | some p =>
      match p with
      | .digital m => (.ok (.digital m), io, 0)
      | .analog _ => (.error .modeConflict, io, 0)
    | none =>
      if pd.Caps &&& CapNormal = 0 then
        (.error .unsupportedMode, io, 0)
      else
        (.ok (Handle.digital pd.N),
         { io with initializedPins := (pd.N, Handle.digital pd.N) :: io.initializedPins },
         1)

/-- One pass of `gpioDriver.Close` over the held handles: `fails` says what
each handle's `Close()` returns.  Result: the first error (if any) and the
list of handles whose `Close()` was actually attempted, in order. -/
def closeList (fails : Int × Handle → Option Err) :
    List (Int × Handle) → Option Err × List (Int × Handle)
  | [] => (none, [])
  | p :: rest =>
    match fails p with
    | some e => (some e, [p])
    | none =>
      let r := closeList fails rest
      (r.1, p :: r.2)

/-- `gpioDriver.Close`: closes every held handle, returning at the first
failure.  The map itself is never mutated (no entry is deleted). -/
def gpioDriver.Close (io : gpioDriver) (fails : Int × Handle → Option Err) :
    Option Err × gpioDriver × List (Int × Handle) :=
  let r := closeList fails io.initializedPins
  (r.1, io, r.2)

/-! ## HD44780 controller over I2C (source file `part_001`) -/

/-- `lcdClearDisplay = 0x01`. -/
def lcdClearDisplay : Nat := 0x01

/-- `lcdReturnHome = 0x02`. -/
def lcdReturnHome : Nat := 0x02

/-- `lcdSetDDRamAddr = 0x80`. -/
def lcdSetDDRamAddr : Nat := 0x80

/-- `lcdSetEntryMode = 0x04`. -/
def lcdSetEntryMode : Nat := 0x04

/-- `lcdEntryIncrement = 0x02`. -/
def lcdEntryIncrement : Nat := 0x02

/-- `lcdEntryShiftOn = 0x01`. -/
def lcdEntryShiftOn : Nat := 0x01

/-- `lcdSetDisplayMode = 0x08`. -/
def lcdSetDisplayMode : Nat := 0x08

/-- `lcdDisplayOn = 0x04`. -/
def lcdDisplayOn : Nat := 0x04

/-- `lcdCursorOn = 0x02`. -/
def lcdCursorOn : Nat := 0x02

/-- `lcdBlinkOn = 0x01`. -/
def lcdBlinkOn : Nat := 0x01

/-- `lcdSetFunctionMode = 0x20`. -/
def lcdSetFunctionMode : Nat := 0x20

/-- `lcd8BitMode = 0x10`. -/
def lcd8BitMode : Nat := 0x10

/-- `lcd2Line = 0x08`. -/
def lcd2Line : Nat := 0x08

/-- `lcd5x8Dots = 0x00`. -/
def lcd5x8Dots : Nat := 0x00

/-- `lcd5x10Dots = 0x04`. -/
def lcd5x10Dots : Nat := 0x04

/-- `RowAddress [4]byte`: DDRAM address of column 0 of each of the 4 rows. -/
structure RowAddress where
  r0 : Nat
  r1 : Nat
  r2 : Nat
  r3 : Nat
deriving DecidableEq, Repr

/-- In-bounds array access `rowAddr[i]` for an index already checked to be
in `0..3` (the out-of-bounds panic is handled by the caller model). -/
def RowAddress.idx (ra : RowAddress) : Nat → Nat
  | 0 => ra.r0
  | 1 => ra.r1
  | 2 => ra.r2
  | _ => ra.r3

/-- `RowAddress16Col = {0x00, 0x40, 0x10, 0x50}`. -/
def RowAddress16Col : RowAddress := ⟨0x00, 0x40, 0x10, 0x50⟩

/-- `RowAddress20Col = {0x00, 0x40, 0x14, 0x54}`. -/
def RowAddress20Col : RowAddress := ⟨0x00, 0x40, 0x14, 0x54⟩

/-- The tracked bitfield state of `ADAFRUIT_CHARLCD` (the embedded
`Connection` is passed separately to each operation). -/
structure CharLCD where
  eMode : Nat
  dMode : Nat
  fMode : Nat
  rowAddr : RowAddress
deriving DecidableEq, Repr

/-- ModeSetter `EntryDecrement`: `eMode &= ^lcdEntryIncrement`. -/
def EntryDecrement (hd : CharLCD) : CharLCD :=
  { hd with eMode := hd.eMode &&& compl8 lcdEntryIncrement }

/-- ModeSetter `EntryIncrement`: `eMode |= lcdEntryIncrement`. -/
def EntryIncrement (hd : CharLCD) : CharLCD :=
  { hd with eMode := hd.eMode ||| lcdEntryIncrement }

/-- ModeSetter `EntryShiftOff`: `eMode &= ^lcdEntryShiftOn`. -/
def EntryShiftOff (hd : CharLCD) : CharLCD :=
  { hd with eMode := hd.eMode &&& compl8 lcdEntryShiftOn }

/-- ModeSetter `EntryShiftOn`: `eMode |= lcdEntryShiftOn`. -/
def EntryShiftOn (hd : CharLCD) : CharLCD :=
  { hd with eMode := hd.eMode ||| lcdEntryShiftOn }

/-- ModeSetter `DisplayOff`: `dMode &= ^lcdDisplayOn`. -/
def DisplayOff (hd : CharLCD) : CharLCD :=
  { hd with dMode := hd.dMode &&& compl8 lcdDisplayOn }

/-- ModeSetter `DisplayOn`: `dMode |= lcdDisplayOn`. -/
def DisplayOn (hd : CharLCD) : CharLCD :=
  { hd with dMode := hd.dMode ||| lcdDisplayOn }

/-- ModeSetter `CursorOff`: `dMode &= ^lcdCursorOn`. -/
def CursorOff (hd : CharLCD) : CharLCD :=
  { hd with dMode := hd.dMode &&& compl8 lcdCursorOn }

/-- ModeSetter `CursorOn`: `dMode |= lcdCursorOn`. -/
def CursorOn (hd : CharLCD) : CharLCD :=
  { hd with dMode := hd.dMode ||| lcdCursorOn }

/-- ModeSetter `BlinkOff`: `dMode &= ^lcdBlinkOn`. -/
def BlinkOff (hd : CharLCD) : CharLCD :=
  { hd with dMode := hd.dMode &&& compl8 lcdBlinkOn }

/-- ModeSetter `BlinkOn`: `dMode |= lcdBlinkOn`. -/
def BlinkOn (hd : CharLCD) : CharLCD :=
  { hd with dMode := hd.dMode ||| lcdBlinkOn }

/-- ModeSetter `FourBitMode`: `fMode &= ^lcd8BitMode`. -/
def FourBitMode (hd : CharLCD) : CharLCD :=
  { hd with fMode := hd.fMode &&& compl8 lcd8BitMode }

/-- ModeSetter `EightBitMode`: `fMode |= lcd8BitMode`. -/
def EightBitMode (hd : CharLCD) : CharLCD :=
  { hd with fMode := hd.fMode ||| lcd8BitMode }

/-- ModeSetter `OneLine`: `fMode &= ^lcd2Line`. -/
def OneLine (hd : CharLCD) : CharLCD :=
  { hd with fMode := hd.fMode &&& compl8 lcd2Line }

/-- ModeSetter `TwoLine`: `fMode |= lcd2Line`. -/
def TwoLine (hd : CharLCD) : CharLCD :=
  { hd with fMode := hd.fMode ||| lcd2Line }

/-- ModeSetter `Dots5x8`: `fMode &= ^lcd5x10Dots`. -/
def Dots5x8 (hd : CharLCD) : CharLCD :=
  { hd with fMode := hd.fMode &&& compl8 lcd5x10Dots }

/-- ModeSetter `Dots5x10`: `fMode |= lcd5x10Dots`. -/
def Dots5x10 (hd : CharLCD) : CharLCD :=
  { hd with fMode := hd.fMode ||| lcd5x10Dots }

/-- `EntryIncrementEnabled`: `eMode & lcdEntryIncrement > 0`. -/
def EntryIncrementEnabled (hd : CharLCD) : Bool :=
  hd.eMode &&& lcdEntryIncrement > 0

/-- `EntryShiftEnabled`: `eMode & lcdEntryShiftOn > 0`. -/
def EntryShiftEnabled (hd : CharLCD) : Bool :=
  hd.eMode &&& lcdEntryShiftOn > 0

/-- `DisplayEnabled`: `dMode & lcdDisplayOn > 0`. -/
def DisplayEnabled (hd : CharLCD) : Bool :=
  hd.dMode &&& lcdDisplayOn > 0

/-- `CursorEnabled`: `dMode & lcdCursorOn > 0`. -/
def CursorEnabled (hd : CharLCD) : Bool :=
  hd.dMode &&& lcdCursorOn > 0

/-- `BlinkEnabled`: `dMode & lcdBlinkOn > 0`. -/
def BlinkEnabled (hd : CharLCD) : Bool :=
  hd.dMode &&& lcdBlinkOn > 0

/-- `EightBitModeEnabled`: `fMode & lcd8BitMode > 0`. -/
def EightBitModeEnabled (hd : CharLCD) : Bool :=
  hd.fMode &&& lcd8BitMode > 0

/-- `TwoLineEnabled`: `fMode & lcd2Line > 0`. -/
def TwoLineEnabled (hd : CharLCD) : Bool :=
  hd.fMode &&& lcd2Line > 0

/-- `Dots5x10Enabled`: the source tests `fMode & lcd5x8Dots > 0`
(note: `lcd5x8Dots` is `0x00`). -/
def Dots5x10Enabled (hd : CharLCD) : Bool :=
  hd.fMode &&& lcd5x8Dots > 0

/-! ### The `Connection` interface, modelled with a fault oracle and a log -/

/-- Fault model for a generic `Connection`: `fails n` is the error (if any)
returned by the `n`-th `Write` call issued on this connection. -/
structure ConnModel where
  fails : Nat → Option Err

/-- Observable state of a generic `Connection`: the number of `Write` calls
issued so far and their `(rs, data)` arguments in order. -/
structure ConnState where
  calls : Nat
  log : List (Bool × Nat)
deriving DecidableEq, Repr

/-- One `Connection.Write(rs, data)` call: the call is issued (logged) and
the fault oracle decides the returned error. -/
def ConnWrite (cm : ConnModel) (s : ConnState) (rs : Bool) (data : Nat) :
    Option Err × ConnState :=
  (cm.fails s.calls, ⟨s.calls + 1, s.log ++ [(rs, data)]⟩)

/-- `WriteInstruction`: write with register select off. -/
def WriteInstruction (cm : ConnModel) (s : ConnState) (value : Nat) :
    Option Err × ConnState :=
  ConnWrite cm s false value

/-- `WriteChar`: write with register select on. -/
def WriteChar (cm : ConnModel) (s : ConnState) (value : Nat) :
    Option Err × ConnState :=
  ConnWrite cm s true value

/-- `setEntryMode`: transmit `lcdSetEntryMode | eMode`. -/
def setEntryMode (cm : ConnModel) (hd : CharLCD) (s : ConnState) :
    Option Err × ConnState :=
  WriteInstruction cm s (lcdSetEntryMode ||| hd.eMode)

/-- `setDisplayMode`: transmit `lcdSetDisplayMode | dMode`. -/
def setDisplayMode (cm : ConnModel) (hd : CharLCD) (s : ConnState) :
    Option Err × ConnState :=
  WriteInstruction cm s (lcdSetDisplayMode ||| hd.dMode)

/-- `setFunctionMode`: transmit `lcdSetFunctionMode | fMode`. -/
def setFunctionMode (cm : ConnModel) (hd : CharLCD) (s : ConnState) :
    Option Err × ConnState :=
  WriteInstruction cm s (lcdSetFunctionMode ||| hd.fMode)

/-- The `for _, m := range modes { m(hd) }` loop of `SetMode`. -/
def applyModes (hd : CharLCD) (modes : List (CharLCD → CharLCD)) : CharLCD :=
  modes.foldl (fun h m => m h) hd

/-- `SetMode`: apply every setter to the bitfields, then transmit the
display, function and entry mode bytes in that order, returning at the
first error.  The mutated bitfields are returned in every case. -/
def SetMode (cm : ConnModel) (hd : CharLCD) (modes : List (CharLCD → CharLCD))
    (s : ConnState) : CharLCD × Option Err × ConnState :=
  let hd := applyModes hd modes
  let r1 := setDisplayMode cm hd s
  match r1.1 with
  | some e => (hd, some e, r1.2)
  | none =>
    let r2 := setFunctionMode cm hd r1.2
    match r2.1 with
    | some e => (hd, some e, r2.2)
    | none =>
      let r3 := setEntryMode cm hd r2.2
      (hd, r3.1, r3.2)

/-- `Clear`: transmit `lcdClearDisplay`; on error return it at once,
otherwise re-assert the modes via `SetMode` with no setters.
(The `time.Sleep(clearDelay)` between the two has no observable effect.) -/
def Clear (cm : ConnModel) (hd : CharLCD) (s : ConnState) :
    CharLCD × Option Err × ConnState :=
  let r := WriteInstruction cm s lcdClearDisplay
  match r.1 with
  | some e => (hd, some e, r.2)
  | none => SetMode cm hd [] r.2

/-- Go conversion `byte(x)` of an `int`: the low 8 bits. -/
def toByte (x : Int) : Nat := (x % 256).toNat

/-- `lcdRowOffset`: clamp `row > 3` down to 3, then index `rowAddr[row]`.
The Go array access panics when the (unclamped-below) index is out of
range, which this model returns as `none`. -/
def lcdRowOffset (hd : CharLCD) (row : Int) : Option Nat :=
  let r := if row > 3 then 3 else row
  if 0 ≤ r ∧ r < 4 then some (hd.rowAddr.idx r.toNat) else none

/-- `SetDDRamAddr`: transmit `lcdSetDDRamAddr | value`. -/
def SetDDRamAddr (cm : ConnModel) (s : ConnState) (value : Nat) :
    Option Err × ConnState :=
  WriteInstruction cm s (lcdSetDDRamAddr ||| value)

/-- `SetCursor(col, row)`: transmit the DDRAM address
`byte(col) + lcdRowOffset(row)` (byte addition).  `none` is the panic of
`lcdRowOffset` on a negative row. -/
def SetCursor (cm : ConnModel) (hd : CharLCD) (s : ConnState)
    (col row : Int) : Option (Option Err × ConnState) :=
  (lcdRowOffset hd row).map fun off =>
    SetDDRamAddr cm s ((toByte col + off) % 256)

/-! ### The I2C-expander `Connection` implementation -/

/-- `I2CPinMap`: expander-register bit position of each controller line. -/
structure I2CPinMap where
  RS : Nat
  RW : Nat
  EN : Nat
  D4 : Nat
  D5 : Nat
  D6 : Nat
  D7 : Nat
  Backlight : Nat
  BLPolarity : Bool
deriving DecidableEq, Repr

/-- `MCP230XXPinMap`: the standard backpack mapping. -/
def MCP230XXPinMap : I2CPinMap :=
  { RS := 7, RW := 6, EN := 5, D4 := 4, D5 := 3, D6 := 2, D7 := 1,
    Backlight := 0, BLPolarity := true }

/-- Fault model for the raw I2C bus: `fails n` is the error (if any)
returned by the `n`-th `WriteByteToReg` call. -/
structure BusModel where
  fails : Nat → Option Err

/-- Observable state of the raw I2C bus: number of `WriteByteToReg` calls
issued so far and their `(addr, reg, value)` arguments in order. -/
structure BusState where
  attempts : Nat
  log : List (Nat × Nat × Nat)
deriving DecidableEq, Repr

/-- One `I2CBus.WriteByteToReg(addr, reg, value)` call. -/
def writeByteToReg (bus : BusModel) (s : BusState) (addr reg value : Nat) :
    Option Err × BusState :=
  (bus.fails s.attempts, ⟨s.attempts + 1, s.log ++ [(addr, reg, value)]⟩)

/-- `I2CConnection`: I2C address and pin map (the bus itself is threaded
through each operation). -/
structure I2CConnection where
  Addr : Nat
  PinMap : I2CPinMap
  Backlight : Bool
deriving DecidableEq, Repr

/-- `NewI2CConnection`: builds the connection and performs the five
expander-setup register writes, discarding each write's error
(`_ = x.I2C.WriteByteToReg(...)`). -/
def NewI2CConnection (bus : BusModel) (s : BusState) (addr : Nat)
    (pinMap : I2CPinMap) : I2CConnection × BusState :=
  let x : I2CConnection := { Addr := addr, PinMap := pinMap, Backlight := false }
  let s := (writeByteToReg bus s addr 0x05 0x00).2
  let s := (writeByteToReg bus s addr 0x0A 0x20).2
  let s := (writeByteToReg bus s addr 0x12 0x40).2
  let s := (writeByteToReg bus s addr 0x00 0x00).2
  let s := (writeByteToReg bus s addr 0x01 0x00).2
  (x, s)

/-- The `for _, b := range bytes` loop of `pulseEnable`: write each byte to
register `0x13`, returning at the first error. -/
def sendSeq (bus : BusModel) (addr : Nat) (s : BusState) :
    List Nat → Option Err × BusState
  | [] => (none, s)
  | b :: rest =>
    let r := writeByteToReg bus s addr 0x13 b
    match r.1 with
    | some e => (some e, r.2)
    | none => sendSeq bus addr r.2 rest

/-- `pulseEnable(data)`: write `data`, `data | (1 << EN)`, `data` to the
expander output register `0x13`. -/
def pulseEnable (conn : I2CConnection) (bus : BusModel) (s : BusState)
    (data : Nat) : Option Err × BusState :=
  sendSeq bus conn.Addr s
    [data, data ||| shl8 0x01 conn.PinMap.EN, data]

/-- The high-nibble frame of `I2CConnection.Write`: data bits 4..7 shifted
to the D4..D7 expander-bit positions. -/
def instructionHigh (pm : I2CPinMap) (data : Nat) : Nat :=
  shl8 ((data >>> 4) &&& 0x01) pm.D4 |||
  shl8 ((data >>> 5) &&& 0x01) pm.D5 |||
  shl8 ((data >>> 6) &&& 0x01) pm.D6 |||
  shl8 ((data >>> 7) &&& 0x01) pm.D7

/-- The low-nibble frame of `I2CConnection.Write`: data bits 0..3 shifted
to the D4..D7 expander-bit positions. -/
def instructionLow (pm : I2CPinMap) (data : Nat) : Nat :=
  shl8 (data &&& 0x01) pm.D4 |||
  shl8 ((data >>> 1) &&& 0x01) pm.D5 |||
  shl8 ((data >>> 2) &&& 0x01) pm.D6 |||
  shl8 ((data >>> 3) &&& 0x01) pm.D7

/-- The `for _, ins := range instructions` loop of `I2CConnection.Write`:
OR in the RS bit when `rs` is set, pulse-enable the frame, return at the
first error. -/
def writeFrames (conn : I2CConnection) (bus : BusModel) (rs : Bool)
    (s : BusState) : List Nat → Option Err × BusState
  | [] => (none, s)
  | ins :: rest =>
    let ins := if rs then ins ||| shl8 0x01 conn.PinMap.RS else ins
    let r := pulseEnable conn bus s ins
    match r.1 with
    | some e => (some e, r.2)
    | none => writeFrames conn bus rs r.2 rest

/-- `I2CConnection.Write(rs, data)`: pulse-enable the high-nibble frame,
then the low-nibble frame.  (The trailing `time.Sleep(writeDelay)` has no
observable effect in this model.) -/
def I2CConnection.Write (conn : I2CConnection) (bus : BusModel)
    (s : BusState) (rs : Bool) (data : Nat) : Option Err × BusState :=
  writeFrames conn bus rs s
    [instructionHigh conn.PinMap data, instructionLow conn.PinMap data]

/-! ## Helper lemmas -/

/-- Generic first-match over a list, used to characterize the lookup loops. -/
def firstSat {α : Type} (p : α → Prop) [DecidablePred p] : List α → Option α
  | [] => none
  | a :: rest => if p a then some a else firstSat p rest

theorem firstSat_eq_some_iff {α : Type} (p : α → Prop) [DecidablePred p] :
    ∀ (m : List α) (x : α),
      firstSat p m = some x ↔
        ∃ i : Nat, m[i]? = some x ∧ p x ∧
          ∀ j, j < i → ∀ q, m[j]? = some q → ¬ p q
  | [], x => by simp [firstSat]
  | a :: rest, x => by
    by_cases ha : p a
    · simp only [firstSat, if_pos ha, Option.some.injEq]
      constructor
      · rintro rfl
        exact ⟨0, by simp, ha, by omega⟩
      · rintro ⟨i, hi, hx, hmin⟩
        cases i with
        | zero => simpa using hi
        | succ j => exact absurd ha (hmin 0 (Nat.succ_pos j) a (by simp))
    · simp only [firstSat, if_neg ha]
      rw [firstSat_eq_some_iff p rest x]
      constructor
      · rintro ⟨i, hi, hx, hmin⟩
        refine ⟨i + 1, by simpa using hi, hx, ?_⟩
        intro j hj q hq
        cases j with
        | zero =>
          simp only [List.getElem?_cons_zero, Option.some.injEq] at hq
          rw [← hq]; exact ha
        | succ j' => exact hmin j' (by omega) q (by simpa using hq)
      · rintro ⟨i, hi, hx, hmin⟩
        cases i with
        | zero =>
          simp only [List.getElem?_cons_zero, Option.some.injEq] at hi
          rw [hi] at ha; exact absurd hx ha
        | succ j =>
          refine ⟨j, by simpa using hi, hx, ?_⟩
          intro j' hj' q hq
          exact hmin (j' + 1) (by omega) q (by simpa using hq)

theorem firstSat_eq_none_iff {α : Type} (p : α → Prop) [DecidablePred p] :
    ∀ (m : List α), firstSat p m = none ↔ ∀ x ∈ m, ¬ p x
  | [] => by simp [firstSat]
  | a :: rest => by
    by_cases ha : p a
    · simp [firstSat, if_pos ha, ha]
    · simp [firstSat, if_neg ha, firstSat_eq_none_iff p rest, ha]

theorem lookupInt_eq_firstSat (m : List PinDesc) (n : Int) :
    lookupInt m n = firstSat (fun pd => pd.N = n) m := by
  induction m with
  | nil => rfl
  | cons pd rest ih => simp only [lookupInt, firstSat, ih]

theorem lookupStr_eq_firstSat (m : List PinDesc) (s : String) :
    lookupStr m s = firstSat (fun pd => s ∈ pd.IDs) m := by
  induction m with
  | nil => rfl
  | cons pd rest ih => simp only [lookupStr, firstSat, ih]

theorem closeList_all_ok (fails : Int × Handle → Option Err) :
    ∀ (l : List (Int × Handle)), (∀ p ∈ l, fails p = none) →
      closeList fails l = (none, l)
  | [], _ => rfl
  | p :: rest, h => by
    have hp : fails p = none := h p (by simp)
    simp only [closeList, hp]
    rw [closeList_all_ok fails rest (fun q hq => h q (by simp [hq]))]

theorem closeList_first_err (fails : Int × Handle → Option Err)
    (p : Int × Handle) (l2 : List (Int × Handle)) (e : Err)
    (hp : fails p = some e) :
    ∀ (l1 : List (Int × Handle)), (∀ q ∈ l1, fails q = none) →
      closeList fails (l1 ++ p :: l2) = (some e, l1 ++ [p])
  | [], _ => by simp only [List.nil_append, closeList, hp]
  | q :: l1, h => by
    have hq : fails q = none := h q (by simp)
    simp only [List.cons_append, closeList, hq]
    rw [List.append_eq,
      closeList_first_err fails p l2 e hp l1 (fun r hr => h r (by simp [hr]))]

/-! ## Claim theorems -/

/-- C9: `PinMap.Lookup` is total and read-only (a pure function of the
registry and the key in this embedding): an int key returns the first
descriptor whose numeric id equals the key, a string key the first
descriptor any of whose alias strings equals the key, and a key of any
other dynamic type returns absence (`none`) rather than failing; when no
descriptor matches, the result is `none`. -/
theorem lookup_firstMatch (m : PinMap) :
    PinMap.Lookup m Key.other = none ∧
    (∀ (n : Int) (pd : PinDesc), PinMap.Lookup m (Key.int n) = some pd ↔
       ∃ i : Nat, m[i]? = some pd ∧ pd.N = n ∧
         ∀ j, j < i → ∀ q, m[j]? = some q → q.N ≠ n) ∧
    (∀ (s : String) (pd : PinDesc), PinMap.Lookup m (Key.str s) = some pd ↔
       ∃ i : Nat, m[i]? = some pd ∧ s ∈ pd.IDs ∧
         ∀ j, j < i → ∀ q, m[j]? = some q → s ∉ q.IDs) ∧
    (∀ n : Int, PinMap.Lookup m (Key.int n) = none ↔ ∀ pd ∈ m, pd.N ≠ n) ∧
    (∀ s : String, PinMap.Lookup m (Key.str s) = none ↔ ∀ pd ∈ m, s ∉ pd.IDs) := by
  refine ⟨rfl, ?_, ?_, ?_, ?_⟩
  · intro n pd
    rw [PinMap.Lookup, lookupInt_eq_firstSat, firstSat_eq_some_iff]
  · intro s pd
    rw [PinMap.Lookup, lookupStr_eq_firstSat, firstSat_eq_some_iff]
  · intro n
    rw [PinMap.Lookup, lookupInt_eq_firstSat, firstSat_eq_none_iff]
  · intro s
    rw [PinMap.Lookup, lookupStr_eq_firstSat, firstSat_eq_none_iff]

/-- Witness for C9 on a concrete two-descriptor registry: the int key 7 and
the alias key "gp7" both resolve to the first descriptor, and an unmatched
int key resolves to nothing. -/
theorem lookup_firstMatch_witness :
    PinMap.Lookup [⟨7, ["gp7"], 1⟩, ⟨8, ["gp8"], 2⟩] (Key.int 7) =
      some ⟨7, ["gp7"], 1⟩ ∧
    PinMap.Lookup [⟨7, ["gp7"], 1⟩, ⟨8, ["gp8"], 2⟩] (Key.str "gp8") =
      some ⟨8, ["gp8"], 2⟩ ∧
    PinMap.Lookup [⟨7, ["gp7"], 1⟩, ⟨8, ["gp8"], 2⟩] (Key.int 9) = none := by
  refine ⟨?_, ?_, ?_⟩
  · exact ((lookup_firstMatch [⟨7, ["gp7"], 1⟩, ⟨8, ["gp8"], 2⟩]).2.1 7
      ⟨7, ["gp7"], 1⟩).mpr ⟨0, rfl, rfl, by omega⟩
  · exact ((lookup_firstMatch [⟨7, ["gp7"], 1⟩, ⟨8, ["gp8"], 2⟩]).2.2.1 "gp8"
      ⟨8, ["gp8"], 2⟩).mpr
      ⟨1, rfl, by simp, by
        intro j hj q hq
        interval_cases j
        · simp only [List.getElem?_cons_zero, Option.some.injEq] at hq
          rw [← hq]; simp⟩
  · exact ((lookup_firstMatch [⟨7, ["gp7"], 1⟩, ⟨8, ["gp8"], 2⟩]).2.2.2.1 9).mpr
      (by intro pd hpd; simp at hpd; rcases hpd with rfl | rfl <;> decide)

/-- C10: `NewI2CConnection` always returns a connection object, performing
exactly the five expander-setup register writes (bank configuration twice,
backlight-off, and the two port-direction registers) and discarding their
errors: the constructor's result is the same for every fault model,
including a bus on which every write fails. -/
theorem newI2CConnection_total (bus : BusModel) (s : BusState) (addr : Nat)
    (pinMap : I2CPinMap) :
    NewI2CConnection bus s addr pinMap =
      ({ Addr := addr, PinMap := pinMap, Backlight := false },
       ⟨s.attempts + 5,
        s.log ++ [(addr, 0x05, 0x00), (addr, 0x0A, 0x20), (addr, 0x12, 0x40),
                  (addr, 0x00, 0x00), (addr, 0x01, 0x00)]⟩) := by
  simp only [NewI2CConnection, writeByteToReg, Prod.mk.injEq, BusState.mk.injEq,
    List.append_assoc, List.cons_append, List.nil_append]

/-- C3 (code bug): the claim says that after applying the `Dots5x10` setter
the `Dots5x10Enabled` getter reports true; in the code the getter masks
`fMode` with `lcd5x8Dots`, which is `0x00`, so the getter is constant false
— in particular false immediately after `Dots5x10`, although the setter did
set the `lcd5x10Dots` bit (0x04) in `fMode`. -/
theorem dots5x10Enabled_constant_false :
    (∀ hd : CharLCD, Dots5x10Enabled hd = false) ∧
    (Dots5x10 ⟨0, 0, 0, RowAddress16Col⟩).fMode = lcd5x10Dots ∧
    Dots5x10Enabled (Dots5x10 ⟨0, 0, 0, RowAddress16Col⟩) = false := by
  refine ⟨?_, by decide, by decide⟩
  intro hd
  simp [Dots5x10Enabled, lcd5x8Dots]

/-- C2 (counterexample): the claim says `SetCursor(col, row)` clamps the row
into `0..3` and never fails for an out-of-range row; at `row = -1` the code
does not clamp from below and the row-address array access is out of range
(a Go panic, `none` in this model) instead of transmitting an instruction. -/
theorem setCursor_neg_row_cex :
    SetCursor ⟨fun _ => none⟩ ⟨0, 0, 0, RowAddress16Col⟩ ⟨0, []⟩ 0 (-1) =
      none := rfl

/-- C2 (amended): for every row ≥ 0 and every column, `SetCursor(col, row)`
transmits the set-DDRAM-address instruction
`0x80 | (byte(col) + rowAddr[min(row, 3)])`; in particular for row > 3 it
behaves identically to row 3.  For row < 0 the row is not clamped and the
call panics (`none`) instead. -/
theorem setCursor_rowClamp (cm : ConnModel) (hd : CharLCD) (s : ConnState)
    (col row : Int) :
    (0 ≤ row → SetCursor cm hd s col row =
       some (WriteInstruction cm s
         (lcdSetDDRamAddr |||
           ((toByte col + hd.rowAddr.idx (min row 3).toNat) % 256)))) ∧
    (3 < row → SetCursor cm hd s col row = SetCursor cm hd s col 3) ∧
    (row < 0 → SetCursor cm hd s col row = none) := by
  refine ⟨?_, ?_, ?_⟩
  · intro h0
    simp only [SetCursor, lcdRowOffset, SetDDRamAddr]
    by_cases h3 : row > 3
    · rw [if_pos h3, if_pos (by omega : (0:Int) ≤ 3 ∧ (3:Int) < 4)]
      rw [(by omega : min row 3 = 3)]
      rfl
    · rw [if_neg h3, if_pos (by omega : 0 ≤ row ∧ row < 4)]
      rw [(by omega : min row 3 = row)]
      rfl
  · intro h3
    simp only [SetCursor, lcdRowOffset]
    rw [if_pos h3]
    norm_num
  · intro hneg
    have h1 : ¬ (row > 3) := by omega
    simp only [SetCursor, lcdRowOffset, if_neg h1]
    rw [if_neg (show ¬(0 ≤ row ∧ row < 4) by omega)]
    rfl

/-- Witness for C2 (amended) at a 16-column display: row 5 clamps to row 3
(address 0x50 + column 2, i.e. instruction 0xD2), and row -1 panics. -/
theorem setCursor_rowClamp_witness :
    SetCursor ⟨fun _ => none⟩ ⟨0, 0, 0, RowAddress16Col⟩ ⟨0, []⟩ 2 5 =
      some (none, ⟨1, [(false, 0xD2)]⟩) ∧
    SetCursor ⟨fun _ => none⟩ ⟨0, 0, 0, RowAddress16Col⟩ ⟨0, []⟩ 2 5 =
      SetCursor ⟨fun _ => none⟩ ⟨0, 0, 0, RowAddress16Col⟩ ⟨0, []⟩ 2 3 ∧
    SetCursor ⟨fun _ => none⟩ ⟨0, 0, 0, RowAddress16Col⟩ ⟨0, []⟩ 2 (-2) =
      none := by
  refine ⟨?_, ?_, ?_⟩
  · exact ((setCursor_rowClamp ⟨fun _ => none⟩ ⟨0, 0, 0, RowAddress16Col⟩
      ⟨0, []⟩ 2 5).1 (by omega)).trans (by rfl)
  · exact (setCursor_rowClamp ⟨fun _ => none⟩ ⟨0, 0, 0, RowAddress16Col⟩
      ⟨0, []⟩ 2 5).2.1 (by omega)
  · exact (setCursor_rowClamp ⟨fun _ => none⟩ ⟨0, 0, 0, RowAddress16Col⟩
      ⟨0, []⟩ 2 (-2)).2.2 (by omega)

/-- C1: on a bus where no write fails, `I2CConnection.Write(rs, data)`
issues exactly six writes to the expander output register `0x13`, in this
order: the high-nibble frame (data bits 4..7 shifted into the D4..D7 bit
positions, RS bit OR'd in when `rs`), the same frame with the EN bit set,
the same frame again; then the same three writes for the low-nibble frame
(data bits 0..3).  The sequence is a pure function of `(rs, data, pin map)`. -/
theorem i2cWrite_six_writes (conn : I2CConnection) (bus : BusModel)
    (s : BusState) (rs : Bool) (data : Nat)
    (hbus : ∀ n, bus.fails n = none) :
    I2CConnection.Write conn bus s rs data =
      (none,
       ⟨s.attempts + 6,
        s.log ++
          [(conn.Addr, 0x13, if rs then instructionHigh conn.PinMap data |||
              shl8 0x01 conn.PinMap.RS else instructionHigh conn.PinMap data),
           (conn.Addr, 0x13, (if rs then instructionHigh conn.PinMap data |||
              shl8 0x01 conn.PinMap.RS else instructionHigh conn.PinMap data) |||
              shl8 0x01 conn.PinMap.EN),
           (conn.Addr, 0x13, if rs then instructionHigh conn.PinMap data |||
              shl8 0x01 conn.PinMap.RS else instructionHigh conn.PinMap data),
           (conn.Addr, 0x13, if rs then instructionLow conn.PinMap data |||
              shl8 0x01 conn.PinMap.RS else instructionLow conn.PinMap data),
           (conn.Addr, 0x13, (if rs then instructionLow conn.PinMap data |||
              shl8 0x01 conn.PinMap.RS else instructionLow conn.PinMap data) |||
              shl8 0x01 conn.PinMap.EN),
           (conn.Addr, 0x13, if rs then instructionLow conn.PinMap data |||
              shl8 0x01 conn.PinMap.RS else instructionLow conn.PinMap data)]⟩) := by
  simp only [I2CConnection.Write, writeFrames, pulseEnable, sendSeq,
    writeByteToReg, hbus, Prod.mk.injEq, BusState.mk.injEq, List.append_assoc,
    List.cons_append, List.nil_append]

/-- Witness for C1: the standard MCP230XX pin map, `rs = true`,
`data = 0x41`: frames 0x84/0x90 gain the RS bit 0x80, and each is strobed
with the EN bit 0x20. -/
theorem i2cWrite_six_writes_witness :
    I2CConnection.Write ⟨0x20, MCP230XXPinMap, false⟩ ⟨fun _ => none⟩
      ⟨0, []⟩ true 0x41 =
      (none,
       ⟨6, [(0x20, 0x13, 0x84), (0x20, 0x13, 0xA4), (0x20, 0x13, 0x84),
            (0x20, 0x13, 0x90), (0x20, 0x13, 0xB0), (0x20, 0x13, 0x90)]⟩) :=
  (i2cWrite_six_writes ⟨0x20, MCP230XXPinMap, false⟩ ⟨fun _ => none⟩
    ⟨0, []⟩ true 0x41 (fun _ => rfl)).trans (by decide)

/-- C4: `SetMode` first applies every given setter to the in-memory
bitfields and then transmits the three mode bytes in the fixed order
display (`0x08 | dMode`), function (`0x20 | fMode`), entry (`0x04 | eMode`);
a transmission error is returned immediately, the remaining mode bytes are
not sent, and the already-applied bitfield mutations are retained in every
case (no rollback). -/
theorem setMode_spec (cm : ConnModel) (hd : CharLCD)
    (modes : List (CharLCD → CharLCD)) (s : ConnState) :
    (SetMode cm hd modes s).1 = applyModes hd modes ∧
    ((∀ n, cm.fails n = none) → SetMode cm hd modes s =
       (applyModes hd modes, none,
        ⟨s.calls + 3,
         s.log ++
           [(false, lcdSetDisplayMode ||| (applyModes hd modes).dMode),
            (false, lcdSetFunctionMode ||| (applyModes hd modes).fMode),
            (false, lcdSetEntryMode ||| (applyModes hd modes).eMode)]⟩)) ∧
    (∀ e, cm.fails s.calls = some e → SetMode cm hd modes s =
       (applyModes hd modes, some e,
        ⟨s.calls + 1,
         s.log ++ [(false, lcdSetDisplayMode ||| (applyModes hd modes).dMode)]⟩)) ∧
    (∀ e, cm.fails s.calls = none → cm.fails (s.calls + 1) = some e →
       SetMode cm hd modes s =
       (applyModes hd modes, some e,
        ⟨s.calls + 2,
         s.log ++
           [(false, lcdSetDisplayMode ||| (applyModes hd modes).dMode),
            (false, lcdSetFunctionMode ||| (applyModes hd modes).fMode)]⟩)) ∧
    (∀ e, cm.fails s.calls = none → cm.fails (s.calls + 1) = none →
       cm.fails (s.calls + 2) = some e →
       SetMode cm hd modes s =
       (applyModes hd modes, some e,
        ⟨s.calls + 3,
         s.log ++
           [(false, lcdSetDisplayMode ||| (applyModes hd modes).dMode),
            (false, lcdSetFunctionMode ||| (applyModes hd modes).fMode),
            (false, lcdSetEntryMode ||| (applyModes hd modes).eMode)]⟩)) := by
  refine ⟨?_, ?_, ?_, ?_, ?_⟩
  · rcases h1 : cm.fails s.calls with _ | e1
    · rcases h2 : cm.fails (s.calls + 1) with _ | e2
      · simp [SetMode, setDisplayMode, setFunctionMode, setEntryMode,
          WriteInstruction, ConnWrite, h1, h2]
      · simp [SetMode, setDisplayMode, setFunctionMode, setEntryMode,
          WriteInstruction, ConnWrite, h1, h2]
    · simp [SetMode, setDisplayMode, setFunctionMode, setEntryMode,
        WriteInstruction, ConnWrite, h1]
  · intro hall
    simp [SetMode, setDisplayMode, setFunctionMode, setEntryMode,
      WriteInstruction, ConnWrite, hall]
  · intro e h1
    simp [SetMode, setDisplayMode, setFunctionMode, setEntryMode,
      WriteInstruction, ConnWrite, h1]
  · intro e h1 h2
    simp [SetMode, setDisplayMode, setFunctionMode, setEntryMode,
      WriteInstruction, ConnWrite, h1, h2]
  · intro e h1 h2 h3
    simp [SetMode, setDisplayMode, setFunctionMode, setEntryMode,
      WriteInstruction, ConnWrite, h1, h2, h3]

/-- Witness for C4: applying `DisplayOn` then `TwoLine` to an all-zero
state.  On a fault-free connection all three mode bytes 0x0C, 0x28, 0x04 go
out; on a connection whose second write fails with error 9, the entry byte
is never sent and the mutated bitfields (dMode = 4, fMode = 8) are kept. -/
theorem setMode_spec_witness :
    SetMode ⟨fun _ => none⟩ ⟨0, 0, 0, RowAddress16Col⟩ [DisplayOn, TwoLine]
      ⟨0, []⟩ =
      (⟨0, 4, 8, RowAddress16Col⟩, none,
       ⟨3, [(false, 0x0C), (false, 0x28), (false, 0x04)]⟩) ∧
    SetMode ⟨fun n => if n = 1 then some 9 else none⟩
      ⟨0, 0, 0, RowAddress16Col⟩ [DisplayOn, TwoLine] ⟨0, []⟩ =
      (⟨0, 4, 8, RowAddress16Col⟩, some 9,
       ⟨2, [(false, 0x0C), (false, 0x28)]⟩) :=
  ⟨((setMode_spec ⟨fun _ => none⟩ ⟨0, 0, 0, RowAddress16Col⟩
      [DisplayOn, TwoLine] ⟨0, []⟩).2.1 (fun _ => rfl)).trans (by decide),
   ((setMode_spec ⟨fun n => if n = 1 then some 9 else none⟩
      ⟨0, 0, 0, RowAddress16Col⟩ [DisplayOn, TwoLine] ⟨0, []⟩).2.2.2.1 9
      rfl rfl).trans (by decide)⟩

/-- C5: `Clear` transmits the clear-display instruction `0x01`; if that
write fails the error is returned at once, no mode byte is transmitted and
the bitfields are unchanged; on success it re-transmits the display,
function and entry mode bytes encoding exactly the bitfield state held
immediately before the call (`SetMode` with no setters).  The bitfields are
unchanged in every case. -/
theorem clear_spec (cm : ConnModel) (hd : CharLCD) (s : ConnState) :
    (Clear cm hd s).1 = hd ∧
    (∀ e, cm.fails s.calls = some e →
       Clear cm hd s =
         (hd, some e, ⟨s.calls + 1, s.log ++ [(false, lcdClearDisplay)]⟩)) ∧
    (cm.fails s.calls = none →
       Clear cm hd s =
         SetMode cm hd [] ⟨s.calls + 1, s.log ++ [(false, lcdClearDisplay)]⟩) ∧
    ((∀ n, cm.fails n = none) →
       Clear cm hd s =
         (hd, none,
          ⟨s.calls + 4,
           s.log ++ [(false, lcdClearDisplay),
                     (false, lcdSetDisplayMode ||| hd.dMode),
                     (false, lcdSetFunctionMode ||| hd.fMode),
                     (false, lcdSetEntryMode ||| hd.eMode)]⟩)) := by
  refine ⟨?_, ?_, ?_, ?_⟩
  · rcases h1 : cm.fails s.calls with _ | e1
    · simp [Clear, SetMode, setDisplayMode, setFunctionMode, setEntryMode,
        WriteInstruction, ConnWrite, applyModes, h1]
      rcases h2 : cm.fails (s.calls + 1) with _ | e2 <;>
        rcases h3 : cm.fails (s.calls + 1 + 1) with _ | e3 <;> simp [h2, h3]
    · simp [Clear, WriteInstruction, ConnWrite, h1]
  · intro e h1
    simp [Clear, WriteInstruction, ConnWrite, h1]
  · intro h1
    simp [Clear, WriteInstruction, ConnWrite, h1]
  · intro hall
    simp [Clear, SetMode, setDisplayMode, setFunctionMode, setEntryMode,
      WriteInstruction, ConnWrite, applyModes, hall]

/-- Witness for C5: with bitfields (eMode, dMode, fMode) = (2, 4, 8), a
fault-free `Clear` sends 0x01 then 0x0C, 0x28, 0x06; a `Clear` whose very
first write fails with error 5 sends only the clear byte and keeps the
bitfields. -/
theorem clear_spec_witness :
    Clear ⟨fun _ => none⟩ ⟨2, 4, 8, RowAddress16Col⟩ ⟨0, []⟩ =
      (⟨2, 4, 8, RowAddress16Col⟩, none,
       ⟨4, [(false, 0x01), (false, 0x0C), (false, 0x28), (false, 0x06)]⟩) ∧
    Clear ⟨fun _ => some 5⟩ ⟨2, 4, 8, RowAddress16Col⟩ ⟨0, []⟩ =
      (⟨2, 4, 8, RowAddress16Col⟩, some 5, ⟨1, [(false, 0x01)]⟩) :=
  ⟨((clear_spec ⟨fun _ => none⟩ ⟨2, 4, 8, RowAddress16Col⟩ ⟨0, []⟩).2.2.2
      (fun _ => rfl)).trans (by decide),
   ((clear_spec ⟨fun _ => some 5⟩ ⟨2, 4, 8, RowAddress16Col⟩ ⟨0, []⟩).2.1 5
      rfl).trans (by decide)⟩

/-- C6: acquiring a digital pin whose key resolves to a pin that already
holds a live digital-pin handle returns that same handle, performs no
underlying open and leaves the handle map unchanged; consequently a second
`digitalPin` call after any successful one returns the same handle with the
same driver state and zero further opens, so repeated acquisition performs
exactly one open in total. -/
theorem digitalPin_idempotent (io : gpioDriver) (k : Key) :
    (∀ pd m, io.pinMap.Lookup k = some pd →
       findPin io.initializedPins pd.N = some (Handle.digital m) →
       digitalPin io k = (.ok (Handle.digital m), io, 0)) ∧
    (∀ h io2 c, digitalPin io k = (.ok h, io2, c) →
       digitalPin io2 k = (.ok h, io2, 0)) := by
  constructor
  · intro pd m hlk hfp
    simp [digitalPin, hlk, hfp]
  · intro h io2 c hcall
    rcases hlk : io.pinMap.Lookup k with _ | pd
    · simp [digitalPin, hlk] at hcall
    · rcases hfp : findPin io.initializedPins pd.N with _ | p
      · by_cases hcap : pd.Caps &&& CapNormal = 0
        · simp [digitalPin, hlk, hfp, hcap] at hcall
        · simp only [digitalPin, hlk, hfp, hcap, if_false, if_neg hcap,
            Prod.mk.injEq, Except.ok.injEq] at hcall
          obtain ⟨hh, hio, -⟩ := hcall
          rw [← hio, ← hh]
          have hlk2 : PinMap.Lookup
              ({ io with initializedPins :=
                  (pd.N, Handle.digital pd.N) :: io.initializedPins } :
                gpioDriver).pinMap k = some pd := hlk
          simp [digitalPin, hlk2, findPin]
      · rcases p with m | m
        · simp only [digitalPin, hlk, hfp, Prod.mk.injEq,
            Except.ok.injEq] at hcall
          obtain ⟨hh, hio, -⟩ := hcall
          rw [← hio, ← hh]
          simp [digitalPin, hlk, hfp]
        · simp [digitalPin, hlk, hfp] at hcall

/-- Witness for C6: a one-pin registry.  A fresh acquisition by int key
opens the pin once; the theorem then gives that re-acquisition (here by the
alias key resolving to the same pin) returns the same handle, the same
driver state, and no further open. -/
theorem digitalPin_idempotent_witness :
    digitalPin ⟨[⟨1, ["p1"], 1⟩], []⟩ (Key.int 1) =
      (.ok (Handle.digital 1), ⟨[⟨1, ["p1"], 1⟩], [(1, Handle.digital 1)]⟩, 1) ∧
    digitalPin ⟨[⟨1, ["p1"], 1⟩], [(1, Handle.digital 1)]⟩ (Key.int 1) =
      (.ok (Handle.digital 1), ⟨[⟨1, ["p1"], 1⟩], [(1, Handle.digital 1)]⟩, 0) ∧
    digitalPin ⟨[⟨1, ["p1"], 1⟩], [(1, Handle.digital 1)]⟩ (Key.str "p1") =
      (.ok (Handle.digital 1), ⟨[⟨1, ["p1"], 1⟩], [(1, Handle.digital 1)]⟩, 0) := by
  refine ⟨rfl, ?_, ?_⟩
  · exact (digitalPin_idempotent ⟨[⟨1, ["p1"], 1⟩], []⟩ (Key.int 1)).2
      (Handle.digital 1) ⟨[⟨1, ["p1"], 1⟩], [(1, Handle.digital 1)]⟩ 1 rfl
  · exact (digitalPin_idempotent ⟨[⟨1, ["p1"], 1⟩], [(1, Handle.digital 1)]⟩
      (Key.str "p1")).1 ⟨1, ["p1"], 1⟩ 1 rfl rfl

/-- C7: every failing `digitalPin` call leaves the handle map unchanged and
performs no underlying open: not-found when the key resolves to no
descriptor, mode-conflict when the pin already holds a handle of a
different kind, unsupported-mode when the pin has no handle and its
capability mask lacks the general-purpose flag; and a mask that includes
the general-purpose flag (with or without extra flags) never causes
failure. -/
theorem digitalPin_failures (io : gpioDriver) (k : Key) :
    (io.pinMap.Lookup k = none →
       digitalPin io k = (.error .notFound, io, 0)) ∧
    (∀ pd m, io.pinMap.Lookup k = some pd →
       findPin io.initializedPins pd.N = some (Handle.analog m) →
       digitalPin io k = (.error .modeConflict, io, 0)) ∧
    (∀ pd, io.pinMap.Lookup k = some pd →
       findPin io.initializedPins pd.N = none →
       pd.Caps &&& CapNormal = 0 →
       digitalPin io k = (.error .unsupportedMode, io, 0)) ∧
    (∀ pd, io.pinMap.Lookup k = some pd →
       findPin io.initializedPins pd.N = none →
       pd.Caps &&& CapNormal ≠ 0 →
       digitalPin io k = (.ok (Handle.digital pd.N),
         { io with initializedPins :=
             (pd.N, Handle.digital pd.N) :: io.initializedPins }, 1)) ∧
    (∀ e io2 c, digitalPin io k = (.error e, io2, c) → io2 = io ∧ c = 0) := by
  refine ⟨?_, ?_, ?_, ?_, ?_⟩
  · intro hlk
    simp [digitalPin, hlk]
  · intro pd m hlk hfp
    simp [digitalPin, hlk, hfp]
  · intro pd hlk hfp hcap
    simp [digitalPin, hlk, hfp, hcap]
  · intro pd hlk hfp hcap
    simp [digitalPin, hlk, hfp, hcap]
  · intro e io2 c hcall
    rcases hlk : io.pinMap.Lookup k with _ | pd
    · simp only [digitalPin, hlk, Prod.mk.injEq] at hcall
      exact ⟨hcall.2.1.symm, hcall.2.2.symm⟩
    · rcases hfp : findPin io.initializedPins pd.N with _ | p
      · by_cases hcap : pd.Caps &&& CapNormal = 0
        · simp only [digitalPin, hlk, hfp, hcap, if_true, Prod.mk.injEq] at hcall
          exact ⟨hcall.2.1.symm, hcall.2.2.symm⟩
        · simp [digitalPin, hlk, hfp, hcap] at hcall
      · rcases p with m | m
        · simp [digitalPin, hlk, hfp] at hcall
        · simp only [digitalPin, hlk, hfp, Prod.mk.injEq] at hcall
          exact ⟨hcall.2.1.symm, hcall.2.2.symm⟩

/-- Witness for C7: the four outcomes on concrete drivers — unknown key,
pin held as an analog handle, pin whose mask is I2C-only (2 & 1 = 0), and a
multi-capability pin (mask 3 = general-purpose | I2C) that still succeeds. -/
theorem digitalPin_failures_witness :
    digitalPin ⟨[], []⟩ (Key.int 0) = (.error .notFound, ⟨[], []⟩, 0) ∧
    digitalPin ⟨[⟨2, [], 1⟩], [(2, Handle.analog 2)]⟩ (Key.int 2) =
      (.error .modeConflict, ⟨[⟨2, [], 1⟩], [(2, Handle.analog 2)]⟩, 0) ∧
    digitalPin ⟨[⟨3, [], 2⟩], []⟩ (Key.int 3) =
      (.error .unsupportedMode, ⟨[⟨3, [], 2⟩], []⟩, 0) ∧
    digitalPin ⟨[⟨4, [], 3⟩], []⟩ (Key.int 4) =
      (.ok (Handle.digital 4), ⟨[⟨4, [], 3⟩], [(4, Handle.digital 4)]⟩, 1) := by
  refine ⟨?_, ?_, ?_, ?_⟩
  · exact (digitalPin_failures ⟨[], []⟩ (Key.int 0)).1 (by decide)
  · exact (digitalPin_failures ⟨[⟨2, [], 1⟩], [(2, Handle.analog 2)]⟩
      (Key.int 2)).2.1 ⟨2, [], 1⟩ 2 (by decide) (by decide)
  · exact (digitalPin_failures ⟨[⟨3, [], 2⟩], []⟩ (Key.int 3)).2.2.1
      ⟨3, [], 2⟩ (by decide) (by decide) (by decide)
  · exact (digitalPin_failures ⟨[⟨4, [], 3⟩], []⟩ (Key.int 4)).2.2.2.1
      ⟨4, [], 3⟩ (by decide) (by decide) (by decide)

/-- C8: the bulk `Close` attempts each held handle in order and returns at
the first failing close, with that error, having attempted exactly the
handles up to and including the failing one (every later handle is left
open); when every close succeeds it returns success having attempted them
all; in every case the handle map itself is unchanged (no entry removed). -/
theorem gpioClose_spec (io : gpioDriver) (fails : Int × Handle → Option Err) :
    (gpioDriver.Close io fails).2.1 = io ∧
    ((∀ p ∈ io.initializedPins, fails p = none) →
       gpioDriver.Close io fails = (none, io, io.initializedPins)) ∧
    (∀ l1 p l2 e, io.initializedPins = l1 ++ p :: l2 →
       (∀ q ∈ l1, fails q = none) → fails p = some e →
       gpioDriver.Close io fails = (some e, io, l1 ++ [p])) := by
  refine ⟨rfl, ?_, ?_⟩
  · intro hall
    simp [gpioDriver.Close, closeList_all_ok fails io.initializedPins hall]
  · intro l1 p l2 e hsplit hok hp
    simp [gpioDriver.Close, hsplit, closeList_first_err fails p l2 e hp l1 hok]

/-- Witness for C8: three held handles where closing pin 2 fails with
error 7 — only the first two are attempted and the map keeps all three —
 and the same driver under a fault-free close. -/
theorem gpioClose_spec_witness :
    gpioDriver.Close
        ⟨[], [(1, Handle.digital 1), (2, Handle.analog 2), (3, Handle.digital 3)]⟩
        (fun p => if p.1 = 2 then some 7 else none) =
      (some 7,
       ⟨[], [(1, Handle.digital 1), (2, Handle.analog 2), (3, Handle.digital 3)]⟩,
       [(1, Handle.digital 1), (2, Handle.analog 2)]) ∧
    gpioDriver.Close
        ⟨[], [(1, Handle.digital 1), (2, Handle.analog 2), (3, Handle.digital 3)]⟩
        (fun _ => none) =
      (none,
       ⟨[], [(1, Handle.digital 1), (2, Handle.analog 2), (3, Handle.digital 3)]⟩,
       [(1, Handle.digital 1), (2, Handle.analog 2), (3, Handle.digital 3)]) := by
  constructor
  · exact (gpioClose_spec
      ⟨[], [(1, Handle.digital 1), (2, Handle.analog 2), (3, Handle.digital 3)]⟩
      (fun p => if p.1 = 2 then some 7 else none)).2.2
      [(1, Handle.digital 1)] (2, Handle.analog 2) [(3, Handle.digital 3)] 7
      rfl (by intro q hq; simp at hq; rw [hq]; rfl) rfl
  · exact (gpioClose_spec
      ⟨[], [(1, Handle.digital 1), (2, Handle.analog 2), (3, Handle.digital 3)]⟩
      (fun _ => none)).2.1 (fun p _ => rfl)

end Embd






